import Mathlib

/-!
Verification of the adaptive frontier controller of the deep-deep focused
crawler (`deepdeep/spiders/qspider.py`).  The controller's pure logic is
shallowly embedded: responses, links, pending requests and the per-domain
frontier become Lean structures; the external collaborators (value function
`Q.predict`, vectorizers, goal, domain extraction) become function parameters
collected in a context record; Python exceptions become `Except`.

Code of this repository that the spider imports but that is not part of the
source under verification (`deepdeep.queues`, `deepdeep.qlearning`,
`deepdeep.links`) is modelled from the specification; each such definition
carries a doc comment starting with `Modelled from the spec:`.
-/

/-- A state-action vector (SAV): sparse numeric vector produced by external
feature extraction.  Its contents are never inspected by the controller, only
carried and handed to the value function, so a list of rationals suffices. -/
abbrev SAV : Type := List ℚ

/-- A page-content feature vector produced by the external `PageVectorizer`. -/
abbrev PageVec : Type := List ℚ

/-- A link dictionary as produced by the external link extractor
(`le.iter_link_dicts`): the controller only ever reads its `url`. -/
structure Link where
  url : String
  deriving DecidableEq, Repr, Inhabited

/-- A pending `scrapy.Request` as the controller builds and re-prioritizes it:
URL, integer priority, the retained SAV stored under `meta['link_vector']`
(absent for seed requests), and the target domain
(`meta['scheduler_slot']` / `set_request_domain`). -/
structure Request where
  url : String
  priority : ℤ
  linkVector : Option SAV
  domain : String
  deriving DecidableEq, Repr, Inhabited

/-- A processed `scrapy` response as seen by `QSpider.parse`: `hasText` models
`hasattr(response, 'text')` (textual content available), `linkVector` is
`response.meta.get('link_vector')` and `links` the outgoing links the external
extractor yields for the page (already locally deduplicated,
`deduplicate_local=True`). -/
structure Response where
  url : String
  hasText : Bool
  text : String
  linkVector : Option SAV
  links : List Link
  deriving DecidableEq, Repr, Inhabited

/-- An experience tuple handed to `Q.add_experience`:
`(as_t, AS_t1, r_t1)` = (prior SAV, next-state SAV matrix or none, reward). -/
structure Experience where
  as_t : Option SAV
  AS_t1 : Option (List SAV)
  r_t1 : ℚ
  deriving DecidableEq, Repr, Inhabited

/-- Embeds `QSpider.is_seed`: a request or response is a seed iff
`'link_vector' not in r.meta`. -/
def is_seed (linkVector : Option SAV) : Bool :=
  linkVector.isNone

/-- Modelled from the spec: `score_to_priority` lives in `deepdeep.queues`,
which is not under the verified source; the spec defines the codec as
`priority = round(score × M)` for a fixed constant `M`. -/
def score_to_priority (M : ℚ) (score : ℚ) : ℤ :=
  round (score * M)

/-- Modelled from the spec: `priority_to_score` lives in `deepdeep.queues`,
which is not under the verified source; the spec defines the lossy inverse as
`score_estimate = priority / M`. -/
def priority_to_score (M : ℚ) (priority : ℤ) : ℚ :=
  (priority : ℚ) / M

/-- C-style float-to-integer conversion (truncation toward zero), the cast
numpy performs when a float array is assigned into an `int`-dtype array, as in
`priorities[indices] = scores * FLOAT_PRIORITY_MULTIPLIER`. -/
def npIntCast (x : ℚ) : ℤ :=
  if 0 ≤ x then ⌊x⌋ else ⌈x⌉

/-- Embeds `QSpider.maybe_checkpoint` for step counter `t` (`self.Q.t_`) and
interval `checkpoint_interval`.  Python evaluates `self.Q.t_ %
self.checkpoint_interval` first, so a zero interval raises `ZeroDivisionError`
before the `or t == 0` test can short-circuit; the result is `ok true` iff
`do_checkpoint` is reached. -/
def maybe_checkpoint (t interval : ℕ) : Except String Bool :=
  if interval = 0 then Except.error "ZeroDivisionError"
  else if t % interval ≠ 0 ∨ t = 0 then Except.ok false
  else Except.ok true

/-- Claim C5: with a strictly positive configured interval, a checkpoint is
taken after processing a response iff the step counter `t` is strictly
positive and an exact multiple of the interval; moreover `t = 0` never
checkpoints, whatever the interval. -/
theorem maybe_checkpoint_iff_pos_multiple (t interval : ℕ) (h : 0 < interval) :
    (maybe_checkpoint t interval = Except.ok true ↔ 0 < t ∧ interval ∣ t) ∧
    maybe_checkpoint 0 interval ≠ Except.ok true := by
  unfold maybe_checkpoint
  have hne : interval ≠ 0 := Nat.pos_iff_ne_zero.mp h
  constructor
  · simp only [hne, if_false]
    by_cases hmod : t % interval = 0
    · by_cases ht : t = 0
      · subst ht; simp
      · simp [hmod, ht, Nat.dvd_iff_mod_eq_zero, Nat.pos_iff_ne_zero]
    · simp [hmod, Nat.dvd_iff_mod_eq_zero]
  · simp [hne]

/-- Witness for C5 at `t = 2000`, `interval = 1000`. -/
theorem maybe_checkpoint_iff_pos_multiple_witness :
    (maybe_checkpoint 2000 1000 = Except.ok true ↔ 0 < 2000 ∧ 1000 ∣ 2000) :=
  (maybe_checkpoint_iff_pos_multiple 2000 1000 (by decide)).1

/-- Claim C10: the modulo is evaluated before the `t == 0` test, so a
configured interval of `0` raises `ZeroDivisionError` for every step counter
`t` (including `t = 0`), while every strictly positive interval makes the
check total (it always returns a Boolean, never an error). -/
theorem maybe_checkpoint_zero_interval_raises :
    (∀ t : ℕ, maybe_checkpoint t 0 = Except.error "ZeroDivisionError") ∧
    (∀ t i : ℕ, ∃ b : Bool, maybe_checkpoint t (i + 1) = Except.ok b) := by
  constructor
  · intro t
    simp [maybe_checkpoint]
  · intro t i
    unfold maybe_checkpoint
    simp only [Nat.succ_ne_zero, if_false]
    by_cases hc : t % (i + 1) ≠ 0 ∨ t = 0
    · exact ⟨false, by simp [hc]⟩
    · exact ⟨true, by simp [hc]⟩

/-- Claim C9: for every positive codec constant `M`, decoding the encoded
priority of a score `s` recovers `s` within `1/M`, and encoding is monotone:
`s₁ < s₂` implies `score_to_priority s₁ ≤ score_to_priority s₂`. -/
theorem codec_precision_and_monotone (M s s₁ s₂ : ℚ) (hM : 0 < M) :
    |priority_to_score M (score_to_priority M s) - s| ≤ 1 / M ∧
    (s₁ < s₂ → score_to_priority M s₁ ≤ score_to_priority M s₂) := by
  constructor
  · have hM0 : M ≠ 0 := hM.ne.symm
    have hkey : priority_to_score M (score_to_priority M s) - s
        = ((score_to_priority M s : ℚ) - s * M) / M := by
      rw [priority_to_score]
      field_simp
      ring
    rw [hkey, abs_div, abs_of_pos hM]
    have hhalf : |(score_to_priority M s : ℚ) - s * M| ≤ 1 / 2 := by
      rw [score_to_priority, abs_sub_comm]
      exact abs_sub_round (s * M)
    calc |(score_to_priority M s : ℚ) - s * M| / M
        ≤ (1 / 2) / M := div_le_div_of_nonneg_right hhalf hM.le
      _ ≤ 1 / M := div_le_div_of_nonneg_right (by norm_num) hM.le
  · intro hlt
    unfold score_to_priority
    have : s₁ * M ≤ s₂ * M :=
      mul_le_mul_of_nonneg_right hlt.le hM.le
    rw [round_eq, round_eq]
    exact Int.floor_le_floor (by linarith)

/-- Witness for C9 at `M = 10000`, `s = 7/100000`, `s₁ = 0`, `s₂ = 1`. -/
theorem codec_precision_and_monotone_witness :
    |priority_to_score 10000 (score_to_priority 10000 (7 / 100000)) - 7 / 100000|
      ≤ 1 / 10000 :=
  (codec_precision_and_monotone 10000 (7 / 100000) 0 1 (by norm_num)).1

/-- The external collaborators of the controller, collected in one record:
the codec constant `M` (`FLOAT_PRIORITY_MULTIPLIER`), the value function's
per-vector prediction semantics `q` (a batched `Q.predict` call maps `q` over
the batch), the link and page vectorizers, `Q.join_As`, domain extraction
(`formasaurus.utils.get_domain`), the goal's reward and achievement tests, and
the `baseline` toggle. -/
structure Ctx where
  M : ℚ
  q : SAV → ℚ
  linkVectorize : List Link → List SAV
  joinAs : Option (List SAV) → Option PageVec → List SAV
  pageVectorize : String → PageVec
  use_pages : Bool
  getDomain : String → String
  reward : Response → ℚ
  achieved : String → Bool
  baseline : Bool

/-- A single batched `Q.predict` call over a list of SAVs: one vectorized call
whose per-row semantics is the scoring function `q`. -/
def predictBatch (q : SAV → ℚ) (vs : List SAV) : List ℚ :=
  vs.map q

/-- Helper for `deduplicate_links_enumerated`: walks the enumerated links,
dropping any link whose URL is in the seen set and adding each survivor's URL
to the set. -/
def dedup_go (seen : List String) : List (ℕ × Link) → List (ℕ × Link)
  | [] => []
  | il :: rest =>
    if il.2.url ∈ seen then dedup_go seen rest
    else il :: dedup_go (il.2.url :: seen) rest

/-- Modelled from the spec: `le.deduplicate_links_enumerated` lives in the
external link-extraction module, not under the verified source; the spec says
the Priority Deriver must "drop links already seen by a process-wide seen-URL
set (external ownership, exact-string policy)".  Returns the surviving links
paired with their original indices into the page's link list. -/
def deduplicate_links_enumerated (seen : List String) (links : List Link) :
    List (ℕ × Link) :=
  dedup_go seen links.enum

/-- The pending request `_links_to_requests` builds for one surviving
`(index, link)` pair given the page's links matrix: it carries the survivor's
SAV (`meta['link_vector']`), its target domain (`meta['scheduler_slot']` and
`set_request_domain`), and priority `score_to_priority(score)`. -/
def mkDerivedRequest (ctx : Ctx) (links_matrix : List SAV) (il : ℕ × Link) :
    Request :=
  { url := il.2.url
    priority := score_to_priority ctx.M (ctx.q (links_matrix.getD il.1 []))
    linkVector := some (links_matrix.getD il.1 [])
    domain := ctx.getDomain il.2.url }

/-- Embeds `QSpider._links_to_requests`: deduplicate the page's links against
the process-wide seen set; if nothing survives, yield nothing; otherwise take
the matrix rows of the surviving indices, score them with one batched
`Q.predict` call, and build one request per survivor. -/
def links_to_requests (ctx : Ctx) (seen : List String) (links : List Link)
    (links_matrix : List SAV) : List Request :=
  let indices_and_links := deduplicate_links_enumerated seen links
  if indices_and_links.isEmpty then []
  else
    let indices := indices_and_links.map Prod.fst
    let links_to_follow := indices_and_links.map Prod.snd
    let AS := indices.map (fun i => links_matrix.getD i [])
    let scores := predictBatch ctx.q AS
    (links_to_follow.zip (AS.zip scores)).map (fun lvs =>
      { url := lvs.1.url
        priority := score_to_priority ctx.M lvs.2.2
        linkVector := some lvs.2.1
        domain := ctx.getDomain lvs.1.url })

/-- Embeds `QSpider._get_page_vector`: `None` unless `use_pages` is set, else
the page vectorizer applied to the response text. -/
def get_page_vector (ctx : Ctx) (resp : Response) : Option PageVec :=
  if ctx.use_pages then some (ctx.pageVectorize resp.text) else none

/-- The links matrix `_parse` computes for a textual response:
`link_vectorizer.transform(links) if links else None`, then
`Q.join_As(links_matrix, page_vector)` (the latter modelled from the spec,
`QLearner.join_As` not being under the verified source: it merges optional
page-content features into the next-state SAV matrix). -/
def response_links_matrix (ctx : Ctx) (resp : Response) : List SAV :=
  ctx.joinAs (if resp.links.isEmpty then none else some (ctx.linkVectorize resp.links))
    (get_page_vector ctx resp)

/-- What one `QSpider._parse` call produces: onward requests, the response's
reward, the experiences recorded into the value function during the call, and
the new running total reward. -/
structure ParseOutcome where
  output : List Request
  reward : ℚ
  experiences : List Experience
  total_reward : ℚ
  deriving DecidableEq, Repr

/-- Embeds `QSpider._parse`: a seed without text ("bad seed") yields nothing
and records nothing; a non-seed without text records the terminal experience
`(as_t, None, 0)` and yields nothing; a textual response builds the links
matrix and, when non-seed, accrues the goal's reward and records
`(as_t, links_matrix, reward)`; either way it derives requests from the links. -/
def qparse (ctx : Ctx) (total_reward : ℚ) (seen : List String)
    (resp : Response) : ParseOutcome :=
  if is_seed resp.linkVector && !resp.hasText then
    ⟨[], 0, [], total_reward⟩
  else
    let as_t := resp.linkVector
    if !resp.hasText then
      ⟨[], 0, [⟨as_t, none, 0⟩], total_reward⟩
    else
      let links := resp.links
      let links_matrix := response_links_matrix ctx resp
      if is_seed resp.linkVector then
        ⟨links_to_requests ctx seen links links_matrix, 0, [], total_reward⟩
      else
        let reward := ctx.reward resp
        ⟨links_to_requests ctx seen links links_matrix, reward,
          [⟨as_t, some links_matrix, reward⟩], total_reward + reward⟩

/-- A concrete context used by the closed witness and counterexample
theorems: `M = 10000` and a constant value function scoring every SAV at
`7/100000`. -/
def ctx0 : Ctx :=
  { M := 10000
    q := fun _ => 7 / 100000
    linkVectorize := fun links => links.map (fun _ => [])
    joinAs := fun m _ => m.getD []
    pageVectorize := fun _ => []
    use_pages := false
    getDomain := fun _ => "d"
    reward := fun _ => 0
    achieved := fun _ => false
    baseline := false }

/-- A seed response (no `link_vector` in meta) lacking textual content. -/
def badSeedResponse : Response :=
  { url := "s", hasText := false, text := "", linkVector := none, links := [] }

/-- A non-seed response lacking textual content. -/
def deadEndResponse : Response :=
  { url := "u", hasText := false, text := "", linkVector := some [1], links := [] }

/-- A seed response with textual content and three outgoing links. -/
def seedResponse : Response :=
  { url := "s", hasText := true, text := "", linkVector := none,
    links := [⟨"a"⟩, ⟨"b"⟩, ⟨"c"⟩] }

/-- A non-seed response with textual content and two outgoing links. -/
def pageResponse : Response :=
  { url := "p", hasText := true, text := "", linkVector := some [2],
    links := [⟨"a"⟩, ⟨"b"⟩] }

/-- Claim C2 counterexample: the claim asserts that EVERY response lacking
textual content (seed or non-seed) records exactly one experience, but a seed
response lacking text hits the "bad seed" early return of `_parse` and records
zero experiences. -/
theorem bad_seed_records_no_experience :
    (qparse ctx0 0 [] badSeedResponse).experiences.length ≠ 1 ∧
    (qparse ctx0 0 [] badSeedResponse).experiences = [] ∧
    (qparse ctx0 0 [] badSeedResponse).output = [] := by
  refine ⟨?_, rfl, rfl⟩
  decide

/-- Claim C2 (amended): every NON-seed response lacking textual content
records exactly one experience `(priorSAV, none, 0)` — a terminal zero-reward
transition — and yields zero onward requests, as a valid input, not an error;
a seed response lacking textual content is likewise valid but records no
experience and yields no requests. -/
theorem no_text_response_terminal_experience (ctx : Ctx) (tr : ℚ)
    (seen : List String) (resp : Response) (hT : resp.hasText = false) :
    (is_seed resp.linkVector = false →
      qparse ctx tr seen resp = ⟨[], 0, [⟨resp.linkVector, none, 0⟩], tr⟩) ∧
    (is_seed resp.linkVector = true →
      qparse ctx tr seen resp = ⟨[], 0, [], tr⟩) := by
  unfold qparse
  constructor <;> intro h <;> simp [h, hT]

/-- Witness for the amended C2 at a concrete non-seed textless response. -/
theorem no_text_response_terminal_experience_witness :
    qparse ctx0 0 [] deadEndResponse = ⟨[], 0, [⟨some [1], none, 0⟩], 0⟩ :=
  (no_text_response_terminal_experience ctx0 0 [] deadEndResponse rfl).1 rfl

/-- Claim C7: a seed response (no SAV in its request metadata) never records
an experience and leaves the running total reward unchanged, whatever its
onward requests. -/
theorem seed_no_experience_no_reward (ctx : Ctx) (tr : ℚ) (seen : List String)
    (resp : Response) (h : is_seed resp.linkVector = true) :
    (qparse ctx tr seen resp).experiences = [] ∧
    (qparse ctx tr seen resp).total_reward = tr ∧
    (qparse ctx tr seen resp).reward = 0 := by
  unfold qparse
  rcases hT : resp.hasText <;> simp [h, hT]

/-- Witness for C7 at a concrete textual seed response with three links. -/
theorem seed_no_experience_no_reward_witness :
    (qparse ctx0 5 [] seedResponse).experiences = [] ∧
    (qparse ctx0 5 [] seedResponse).total_reward = 5 ∧
    (qparse ctx0 5 [] seedResponse).reward = 0 :=
  seed_no_experience_no_reward ctx0 5 [] seedResponse rfl

/-- The zip-of-maps pipeline in `_links_to_requests` builds exactly one
request per surviving `(index, link)` pair. -/
theorem zip_scores_map_eq (ctx : Ctx) (m : List SAV) (s : List (ℕ × Link)) :
    ((s.map Prod.snd).zip (((s.map Prod.fst).map (fun i => m.getD i [])).zip
        (predictBatch ctx.q ((s.map Prod.fst).map (fun i => m.getD i []))))).map
      (fun lvs => ({ url := lvs.1.url
                     priority := score_to_priority ctx.M lvs.2.2
                     linkVector := some lvs.2.1
                     domain := ctx.getDomain lvs.1.url } : Request))
      = s.map (mkDerivedRequest ctx m) := by
  induction s with
  | nil => rfl
  | cons il tl ih => simpa [predictBatch, mkDerivedRequest] using ih

/-- `_links_to_requests` equals one `mkDerivedRequest` per survivor of the
seen-URL deduplication, in order. -/
theorem links_to_requests_eq_map (ctx : Ctx) (seen : List String)
    (links : List Link) (m : List SAV) :
    links_to_requests ctx seen links m
      = (deduplicate_links_enumerated seen links).map (mkDerivedRequest ctx m) := by
  unfold links_to_requests
  by_cases h : (deduplicate_links_enumerated seen links).isEmpty
  · rw [List.isEmpty_iff] at h
    simp [h]
  · simp only [h, if_false]
    exact zip_scores_map_eq ctx m (deduplicate_links_enumerated seen links)

/-- Claim C4: for every non-seed textual response, exactly one derived request
is produced per link surviving the process-wide seen-URL deduplication; each
carries its SAV (the matrix row of its original index) and target domain, and
has priority equal to the codec encoding of the value-function score of that
SAV (the scores coming from one batched prediction call); with zero survivors
the output is empty and no error is raised. -/
theorem derived_requests_per_survivor (ctx : Ctx) (tr : ℚ) (seen : List String)
    (resp : Response) (hS : is_seed resp.linkVector = false)
    (hT : resp.hasText = true) :
    ((qparse ctx tr seen resp).output.length
        = (deduplicate_links_enumerated seen resp.links).length) ∧
    (∀ j : ℕ, j < (qparse ctx tr seen resp).output.length →
      (qparse ctx tr seen resp).output.getD j default
        = mkDerivedRequest ctx (response_links_matrix ctx resp)
            ((deduplicate_links_enumerated seen resp.links).getD j (0, default))) ∧
    (deduplicate_links_enumerated seen resp.links = [] →
      (qparse ctx tr seen resp).output = []) := by
  have hout : (qparse ctx tr seen resp).output
      = (deduplicate_links_enumerated seen resp.links).map
          (mkDerivedRequest ctx (response_links_matrix ctx resp)) := by
    unfold qparse
    simp [hS, hT, links_to_requests_eq_map]
  refine ⟨?_, ?_, ?_⟩
  · rw [hout, List.length_map]
  · intro j hj
    rw [hout] at hj ⊢
    rw [List.length_map] at hj
    rw [List.getD_eq_getElem _ _ (by simpa using hj),
        List.getD_eq_getElem _ _ hj, List.getElem_map]
  · intro hempty
    rw [hout, hempty]
    rfl

/-- Witness for C4 at a concrete non-seed textual response with two unseen
links: two derived requests, matching the survivor list pointwise. -/
theorem derived_requests_per_survivor_witness :
    ((qparse ctx0 0 [] pageResponse).output.length
        = (deduplicate_links_enumerated [] pageResponse.links).length) ∧
    ((qparse ctx0 0 [] pageResponse).output.length = 2) ∧
    ((qparse ctx0 0 [] pageResponse).output.getD 0 default
        = mkDerivedRequest ctx0 (response_links_matrix ctx0 pageResponse)
            ((deduplicate_links_enumerated [] pageResponse.links).getD 0 (0, default))) :=
  ⟨(derived_requests_per_survivor ctx0 0 [] pageResponse rfl rfl).1,
   by decide,
   (derived_requests_per_survivor ctx0 0 [] pageResponse rfl rfl).2.1 0 (by decide)⟩

/-- The write-back of `priorities[indices] = scores * FLOAT_PRIORITY_MULTIPLIER`
in `request_priorities`: the collected indices are exactly the positions of the
non-seed requests in order, so the scatter assigns the scores to the non-seed
positions in order, each converted to an integer by numpy's truncation toward
zero; seed positions keep the `request.priority` written during the collection
loop. -/
def scatter_priorities (M : ℚ) : List Request → List ℚ → List ℤ
  | [], _ => []
  | r :: rs, scores =>
    match r.linkVector with
    | none => r.priority :: scatter_priorities M rs scores
    | some _ =>
      match scores with
      | [] => []
      | sc :: rest => npIntCast (sc * M) :: scatter_priorities M rs rest

/-- Embeds the inner `request_priorities` function of
`recalculate_request_priorities`: seed requests keep their current priority;
the link vectors of all non-seed requests are collected, scored by one batched
`Q.predict` call, and the scores times `FLOAT_PRIORITY_MULTIPLIER` are written
back into the priority array at the collected indices (a numpy `int`-dtype
assignment, hence truncation toward zero). -/
def request_priorities (ctx : Ctx) (requests : List Request) : List ℤ :=
  let vectors := requests.filterMap (fun r => r.linkVector)
  let scores := predictBatch ctx.q vectors
  scatter_priorities ctx.M requests scores

/-- `request_priorities` acts pointwise: a seed request keeps its priority and
a derived one gets the truncated product of its current score and `M`. -/
theorem request_priorities_eq_map (ctx : Ctx) (requests : List Request) :
    request_priorities ctx requests
      = requests.map (fun r => match r.linkVector with
          | none => r.priority
          | some v => npIntCast (ctx.q v * ctx.M)) := by
  unfold request_priorities
  induction requests with
  | nil => rfl
  | cons r rs ih =>
    cases hv : r.linkVector <;>
      simp only [List.filterMap_cons, hv, Option.map_some, predictBatch,
        List.map_cons, scatter_priorities] <;>
      rw [← ih] <;> rfl

/-- Modelled from the spec: `RequestsPriorityQueue.update_all_priorities` is
part of the external frontier queue (`deepdeep.queues`), not under the
verified source; the spec says `queueFor(slot).updateAllPriorities(scoringFn)`
applies the scoring function to the ordered batch of pending requests and
writes the resulting integer priorities back in place, losing no items and
keeping insertion order for tie-breaking. -/
def update_all_priorities (scoringFn : List Request → List ℤ)
    (queue : List Request) : List Request :=
  (queue.zip (scoringFn queue)).map (fun rp => { rp.1 with priority := rp.2 })

/-- Writing back pointwise-computed priorities rewrites each request's
priority in place. -/
theorem zip_priorities_update (f : Request → ℤ) (queue : List Request) :
    (queue.zip (queue.map f)).map (fun rp => { rp.1 with priority := rp.2 })
      = queue.map (fun r => { r with priority := f r }) := by
  induction queue with
  | nil => rfl
  | cons r rs ih => simp [ih]

/-- A refresh of one slot's queue: derived requests get the truncated product
of current score and `M`, seed-like requests are untouched. -/
theorem update_with_request_priorities (ctx : Ctx) (queue : List Request) :
    update_all_priorities (request_priorities ctx) queue
      = queue.map (fun r => match r.linkVector with
          | none => r
          | some v => { r with priority := npIntCast (ctx.q v * ctx.M) }) := by
  unfold update_all_priorities
  rw [request_priorities_eq_map, zip_priorities_update]
  apply List.map_congr_left
  intro r _
  obtain ⟨u, p, lv, d⟩ := r
  cases lv <;> rfl

/-- Modelled from the spec: the external frontier (`BalancedPriorityQueue` in
`deepdeep.queues`, reached through the scheduler) keeps one logical sub-queue
per domain; a slot is open (active, with its ordered pending requests) or
closed.  `get_active_slots` enumerates the open slots' keys. -/
structure FrontierState where
  active : List (String × List Request)
  closed : List String
  deriving DecidableEq, Repr

/-- Modelled from the spec: `scheduler.queue.get_active_slots()` returns the
keys of the open slots. -/
def get_active_slots (s : FrontierState) : List String :=
  s.active.map Prod.fst

/-- Modelled from the spec: `scheduler.close_slot(slot)` removes the slot from
future dequeuing and refresh passes (its pending requests are abandoned, not
migrated) and marks it closed; closing is irreversible. -/
def close_slot (s : FrontierState) (slot : String) : FrontierState :=
  { active := s.active.filter (fun p => p.1 ≠ slot)
    closed := if slot ∈ s.closed then s.closed else slot :: s.closed }

/-- Embeds `QSpider.close_finished_queues`: for each currently active slot,
close it if the goal reports its domain achieved. -/
def close_finished_queues (ctx : Ctx) (s : FrontierState) : FrontierState :=
  (get_active_slots s).foldl
    (fun st slot => if ctx.achieved slot then close_slot st slot else st) s

/-- Embeds `QSpider.recalculate_request_priorities`: a no-op in baseline mode;
otherwise every active slot's queue has all its priorities rewritten via
`update_all_priorities(request_priorities)`. -/
def recalculate_request_priorities (ctx : Ctx) (s : FrontierState) :
    FrontierState :=
  if ctx.baseline then s
  else
    { s with active := s.active.map (fun sq =>
        (sq.1, update_all_priorities (request_priorities ctx) sq.2)) }

/-- Embeds `QSpider.on_model_changed`: increment `model_changes` and, since
`model_changes % 1 == 0` always holds, run one priority-refresh pass.  The
last component counts the refresh passes performed by this call. -/
def on_model_changed (ctx : Ctx) (model_changes : ℕ) (s : FrontierState) :
    ℕ × FrontierState × ℕ :=
  let mc := model_changes + 1
  if mc % 1 = 0 then (mc, recalculate_request_priorities ctx s, 1)
  else (mc, s, 0)

/-- A frontier holding one open slot `"d"` with a single derived pending
request whose SAV `[1]` scores `7/100000` under `ctx0`. -/
def frontier0 : FrontierState :=
  { active := [("d", [{ url := "u", priority := 5,
                        linkVector := some [1], domain := "d" }])]
    closed := [] }

/-- Claim C1 counterexample: with the current model scoring the retained SAV
`[1]` at `7/100000` and `M = 10000`, the refresh pass stores the numpy-cast
(truncated) priority `0`, while the codec encoding `round(score × M)` of the
same current score is `1`: the refreshed priority does not equal the codec
encoding of the current value-function score of the retained SAV. -/
theorem refresh_priority_not_codec_encoding :
    ((((recalculate_request_priorities ctx0 frontier0).active.getD 0
        ("", [])).2.getD 0 default).priority = 0) ∧
    score_to_priority ctx0.M (ctx0.q [1]) = 1 ∧
    ((((recalculate_request_priorities ctx0 frontier0).active.getD 0
        ("", [])).2.getD 0 default).linkVector = some [1]) := by
  have h7 : (7 : ℚ) / 100000 * 10000 = 7 / 10 := by norm_num
  have hcast : npIntCast ((7 : ℚ) / 100000 * 10000) = 0 := by
    rw [h7, npIntCast, if_pos (by norm_num)]
    rw [Int.floor_eq_iff]
    constructor <;> norm_num
  have hstate : recalculate_request_priorities ctx0 frontier0
      = { active := [("d", [{ url := "u", priority := 0,
                              linkVector := some [1], domain := "d" }])],
          closed := [] } := by
    simp [recalculate_request_priorities, ctx0, frontier0, update_all_priorities,
      request_priorities, predictBatch, scatter_priorities, hcast]
  refine ⟨by rw [hstate]; rfl, ?_, by rw [hstate]; rfl⟩
  show round ((7 : ℚ) / 100000 * 10000) = 1
  rw [h7, round_eq, show (7 : ℚ) / 10 + 1 / 2 = 6 / 5 by norm_num,
    Int.floor_eq_iff]
  constructor <;> norm_num

/-- Claim C1 (amended): after a refresh pass in non-baseline mode, every open
slot keeps its key and queue length, every derived pending request in it keeps
its URL, SAV and domain and has integer priority equal to the numpy truncation
toward zero of (current value-function score of its retained SAV × M) — the
codec encoding except that it truncates where the codec rounds — and every
seed-like request (no SAV) is left completely unchanged. -/
theorem refresh_rewrites_derived_priorities (ctx : Ctx) (s : FrontierState)
    (hb : ctx.baseline = false) :
    (recalculate_request_priorities ctx s).active.length = s.active.length ∧
    ∀ i j : ℕ, i < s.active.length → j < (s.active.getD i ("", [])).2.length →
      ((recalculate_request_priorities ctx s).active.getD i ("", [])).1
          = (s.active.getD i ("", [])).1 ∧
      ((recalculate_request_priorities ctx s).active.getD i ("", [])).2.length
          = (s.active.getD i ("", [])).2.length ∧
      ((recalculate_request_priorities ctx s).active.getD i ("", [])).2.getD j default
          = (match ((s.active.getD i ("", [])).2.getD j default).linkVector with
             | none => (s.active.getD i ("", [])).2.getD j default
             | some v => { (s.active.getD i ("", [])).2.getD j default with
                           priority := npIntCast (ctx.q v * ctx.M) }) := by
  have hrw : recalculate_request_priorities ctx s
      = { s with active := s.active.map (fun sq =>
            (sq.1, (sq.2.map (fun r => match r.linkVector with
              | none => r
              | some v => { r with priority := npIntCast (ctx.q v * ctx.M) })))) } := by
    unfold recalculate_request_priorities
    rw [if_neg (by simp [hb])]
    congr 1
    apply List.map_congr_left
    intro sq _
    rw [update_with_request_priorities]
  rw [hrw]
  refine ⟨by simp, ?_⟩
  intro i j hi hj
  rw [List.getD_eq_getElem _ _ hi] at hj
  have hi2 : i < (s.active.map (fun sq =>
      (sq.1, sq.2.map (fun r => match r.linkVector with
        | none => r
        | some v => { r with priority := npIntCast (ctx.q v * ctx.M) })))).length := by
    simpa using hi
  rw [List.getD_eq_getElem _ _ hi2, List.getD_eq_getElem _ _ hi, List.getElem_map]
  refine ⟨rfl, by simp, ?_⟩
  show (s.active[i].2.map (fun r => match r.linkVector with
      | none => r
      | some v => { r with priority := npIntCast (ctx.q v * ctx.M) })).getD j default
      = _
  have hj2 : j < (s.active[i].2.map (fun r => match r.linkVector with
      | none => r
      | some v => { r with priority := npIntCast (ctx.q v * ctx.M) })).length := by
    simpa using hj
  rw [List.getD_eq_getElem _ _ hj2, List.getD_eq_getElem _ _ hj, List.getElem_map]

/-- Witness for the amended C1 at `frontier0`: the single derived request ends
with the truncated priority. -/
theorem refresh_rewrites_derived_priorities_witness :
    ((recalculate_request_priorities ctx0 frontier0).active.getD 0 ("", [])).2.getD 0 default
      = (match ((frontier0.active.getD 0 ("", [])).2.getD 0 default).linkVector with
         | none => (frontier0.active.getD 0 ("", [])).2.getD 0 default
         | some v => { (frontier0.active.getD 0 ("", [])).2.getD 0 default with
                       priority := npIntCast (ctx0.q v * ctx0.M) }) :=
  ((refresh_rewrites_derived_priorities ctx0 frontier0 rfl).2 0 0
    (by decide) (by decide)).2.2

/-- Claim C8: every detected value-function change triggers exactly one
priority-refresh pass (the modulus is 1, so the default policy refreshes on
every change), and with the baseline toggle set the refresh pass rewrites
nothing: the frontier is returned unchanged. -/
theorem model_change_triggers_one_refresh (ctx : Ctx) (mc : ℕ)
    (s : FrontierState) :
    on_model_changed ctx mc s
        = (mc + 1, recalculate_request_priorities ctx s, 1) ∧
    (∀ s2 : FrontierState,
      recalculate_request_priorities { ctx with baseline := true } s2 = s2) := by
  constructor
  · simp [on_model_changed, Nat.mod_one]
  · intro s2
    simp [recalculate_request_priorities]

/-- Modelled from the spec: routing a new pending request into the frontier is
queue-side behavior (`BalancedPriorityQueue`, external to the verified
source); the spec says a domain slot is "created lazily on first request for
that domain", a closed slot is "removed from ... future priority derivation
targeting it", and its pending requests are abandoned. -/
def enqueue_request (s : FrontierState) (req : Request) : FrontierState :=
  if req.domain ∈ s.closed then s
  else if req.domain ∈ get_active_slots s then
    { s with active := s.active.map (fun sq =>
        if sq.1 = req.domain then (sq.1, sq.2 ++ [req]) else sq) }
  else
    { s with active := s.active ++ [(req.domain, [req])] }

/-- The frontier-touching operations the controller performs after a slot may
have been closed: a goal-driven closing sweep, a priority-refresh pass, or the
enqueueing of a newly derived request. -/
inductive FrontierOp where
  | closeFinished
  | refresh
  | enqueue (req : Request)

/-- One controller step acting on the frontier. -/
def applyOp (ctx : Ctx) (s : FrontierState) : FrontierOp → FrontierState
  | FrontierOp.closeFinished => close_finished_queues ctx s
  | FrontierOp.refresh => recalculate_request_priorities ctx s
  | FrontierOp.enqueue req => enqueue_request s req

/-- A sequence of controller steps acting on the frontier. -/
def runOps (ctx : Ctx) (s : FrontierState) (ops : List FrontierOp) :
    FrontierState :=
  ops.foldl (applyOp ctx) s

/-- Closing any slot keeps an already-closed slot closed and keeps a
non-active slot out of the active enumeration. -/
theorem close_slot_preserves (st : FrontierState) (slot slot2 : String)
    (hc : slot ∈ st.closed) (ha : slot ∉ get_active_slots st) :
    slot ∈ (close_slot st slot2).closed ∧
    slot ∉ get_active_slots (close_slot st slot2) := by
  constructor
  · unfold close_slot
    by_cases h : slot2 ∈ st.closed <;> simp [h, hc]
  · unfold close_slot get_active_slots
    intro hmem
    apply ha
    unfold get_active_slots
    rcases List.mem_map.mp hmem with ⟨p, hp, hfst⟩
    exact List.mem_map.mpr ⟨p, (List.mem_filter.mp hp).1, hfst⟩

/-- The goal-driven closing sweep preserves closedness and non-activity of any
slot that is already closed and inactive. -/
theorem foldl_close_preserves (ctx : Ctx) (slot : String) (l : List String) :
    ∀ st : FrontierState, slot ∈ st.closed → slot ∉ get_active_slots st →
      slot ∈ (l.foldl (fun st2 slot2 =>
        if ctx.achieved slot2 then close_slot st2 slot2 else st2) st).closed ∧
      slot ∉ get_active_slots (l.foldl (fun st2 slot2 =>
        if ctx.achieved slot2 then close_slot st2 slot2 else st2) st) := by
  induction l with
  | nil => exact fun st hc ha => ⟨hc, ha⟩
  | cons x xs ih =>
    intro st hc ha
    simp only [List.foldl_cons]
    by_cases h : ctx.achieved x = true
    · rcases close_slot_preserves st slot x hc ha with ⟨hc2, ha2⟩
      rw [if_pos h]
      exact ih _ hc2 ha2
    · rw [if_neg h]
      exact ih st hc ha

/-- A refresh pass touches only the queues of active slots: it never changes
which slots are active or closed. -/
theorem refresh_preserves_slots (ctx : Ctx) (s : FrontierState) :
    get_active_slots (recalculate_request_priorities ctx s)
        = get_active_slots s ∧
    (recalculate_request_priorities ctx s).closed = s.closed := by
  unfold recalculate_request_priorities
  by_cases h : ctx.baseline = true
  · rw [if_pos h]; exact ⟨rfl, rfl⟩
  · rw [if_neg h]
    refine ⟨?_, rfl⟩
    unfold get_active_slots
    simp

/-- Enqueueing a request preserves closedness and non-activity of a closed
slot: a request targeting the closed slot is dropped, any other request lands
in a different slot. -/
theorem enqueue_preserves (s : FrontierState) (req : Request) (slot : String)
    (hc : slot ∈ s.closed) (ha : slot ∉ get_active_slots s) :
    slot ∈ (enqueue_request s req).closed ∧
    slot ∉ get_active_slots (enqueue_request s req) := by
  unfold enqueue_request
  by_cases h1 : req.domain ∈ s.closed
  · rw [if_pos h1]; exact ⟨hc, ha⟩
  · rw [if_neg h1]
    have hne : req.domain ≠ slot := fun he => h1 (he ▸ hc)
    by_cases h2 : req.domain ∈ get_active_slots s
    · rw [if_pos h2]
      refine ⟨hc, ?_⟩
      have hnames : get_active_slots { s with active := s.active.map (fun sq =>
          if sq.1 = req.domain then (sq.1, sq.2 ++ [req]) else sq) }
          = get_active_slots s := by
        unfold get_active_slots
        simp only [List.map_map]
        apply List.map_congr_left
        intro sq _
        by_cases h3 : sq.1 = req.domain <;> simp [Function.comp, h3]
      rw [hnames]
      exact ha
    · rw [if_neg h2]
      refine ⟨hc, ?_⟩
      unfold get_active_slots at ha ⊢
      simp only [List.map_append, List.mem_append]
      rintro (h | h)
      · exact ha h
      · simp only [List.map_cons, List.map_nil, List.mem_singleton] at h
        exact hne h.symm

/-- Claim C6: a closed slot is terminal.  If a slot is closed and absent from
the active enumeration, then after any sequence of subsequent controller steps
(goal-driven closing sweeps, refresh passes — which by construction touch only
active slots, so the closed slot is excluded from every refresh — and request
enqueues) it is still closed and still absent from the active slots. -/
theorem closed_slot_terminal (ctx : Ctx) (ops : List FrontierOp)
    (s : FrontierState) (slot : String)
    (hc : slot ∈ s.closed) (ha : slot ∉ get_active_slots s) :
    slot ∈ (runOps ctx s ops).closed ∧
    slot ∉ get_active_slots (runOps ctx s ops) := by
  induction ops generalizing s with
  | nil => exact ⟨hc, ha⟩
  | cons op rest ih =>
    have hstep : slot ∈ (applyOp ctx s op).closed ∧
        slot ∉ get_active_slots (applyOp ctx s op) := by
      cases op with
      | closeFinished =>
        have h := foldl_close_preserves ctx slot (get_active_slots s) s hc ha
        simpa [applyOp, close_finished_queues] using h
      | refresh =>
        rcases refresh_preserves_slots ctx s with ⟨h1, h2⟩
        exact ⟨by rw [applyOp, h2]; exact hc, by rw [applyOp, h1]; exact ha⟩
      | enqueue req => exact enqueue_preserves s req slot hc ha
    simp only [runOps, List.foldl_cons]
    exact ih (applyOp ctx s op) hstep.1 hstep.2

/-- A context whose goal reports domain `"d"` achieved. -/
def ctx1 : Ctx := { ctx0 with achieved := fun d => d == "d" }

/-- A frontier with open slot `"d"` and already-closed slot `"x"`. -/
def frontier1 : FrontierState :=
  { active := [("d", [])], closed := ["x"] }

/-- A closing sweep, a refresh pass, and an enqueue targeting the closed
slot `"x"`. -/
def opsW : List FrontierOp :=
  [FrontierOp.closeFinished, FrontierOp.refresh,
   FrontierOp.enqueue { url := "u2", priority := 3, linkVector := none,
                        domain := "x" }]

/-- Witness for C6: the closed slot `"x"` survives a closing sweep, a refresh
pass and an enqueue targeting it, staying closed and inactive. -/
theorem closed_slot_terminal_witness :
    "x" ∈ (runOps ctx1 frontier1 opsW).closed ∧
    "x" ∉ get_active_slots (runOps ctx1 frontier1 opsW) :=
  closed_slot_terminal ctx1 opsW frontier1 "x" (by decide) (by decide)

/-- The four controller operations whose relative order claim C3 concerns. -/
inductive Event where
  | slotClosing
  | experienceRecorded
  | refreshTriggerCheck
  | linkScoring
  deriving DecidableEq, Repr

/-- The ordered operations inside one `QSpider._parse` call: a bad seed does
nothing; a non-seed textless response records one experience, whose
`Q.add_experience` call fires the `on_model_changed` refresh-trigger check
(modelled from the spec: the value-function update "is expected to signal the
controller ... whenever a change occurs that warrants a refresh",
`QLearner` itself not being under the verified source); a textual seed only
runs link scoring/derivation (the `_links_to_requests` call); a textual
non-seed records the experience, passes the trigger check, then scores
links. -/
def qparse_trace (resp : Response) : List Event :=
  if is_seed resp.linkVector && !resp.hasText then []
  else if !resp.hasText then
    [Event.experienceRecorded, Event.refreshTriggerCheck]
  else if is_seed resp.linkVector then [Event.linkScoring]
  else [Event.experienceRecorded, Event.refreshTriggerCheck, Event.linkScoring]

/-- The ordered operations of one `QSpider.parse` call:
`close_finished_queues` (slot closing) runs first, before `_parse` records any
experience or scores any link. -/
def parse_trace (resp : Response) : List Event :=
  Event.slotClosing :: qparse_trace resp

/-- Claim C3 counterexample: for a concrete non-seed textual response, the
operations of one `parse` call do NOT occur in the claimed order "experience
recording, then refresh trigger check, then slot closing, then link scoring":
slot closing runs first, before the experience is recorded. -/
theorem parse_order_counterexample :
    ¬ ((parse_trace pageResponse).indexOf Event.experienceRecorded
          < (parse_trace pageResponse).indexOf Event.refreshTriggerCheck ∧
       (parse_trace pageResponse).indexOf Event.refreshTriggerCheck
          < (parse_trace pageResponse).indexOf Event.slotClosing ∧
       (parse_trace pageResponse).indexOf Event.slotClosing
          < (parse_trace pageResponse).indexOf Event.linkScoring) := by
  decide

/-- Claim C3 (amended): within the processing of each single response the
controller's operations execute in the order slot closing, then experience
recording, then refresh trigger check, then link scoring/request derivation,
each at most once, before the next response is accepted: every trace starts
with slot closing and is a sublist of that canonical order. -/
theorem parse_order_amended (resp : Response) :
    (parse_trace resp).head? = some Event.slotClosing ∧
    List.Sublist (parse_trace resp)
      [Event.slotClosing, Event.experienceRecorded,
       Event.refreshTriggerCheck, Event.linkScoring] := by
  refine ⟨rfl, ?_⟩
  unfold parse_trace qparse_trace
  rcases h1 : is_seed resp.linkVector <;> rcases h2 : resp.hasText <;>
    simp [h1, h2]
